import Mathlib

/-!
Shallow embedding of the collaborative-editing CRDT engine (`src/main.rs`).
Rust `u64`/`u32`/`usize` values are modelled as `Nat`; where the source can
panic (explicit `panic!`/`todo!`, `unwrap`, or debug-mode integer underflow)
the embedded function returns `Option` and `none` models the panic.
Strings are compared as their character lists.
-/

namespace CrdtSplice

/-- Rust: `struct NodeId { operation_id: u64, client_id: u64 }` with derived
lexicographic order (`operation_id` first, then `client_id`). -/
structure NodeId where
  operation_id : Nat
  client_id : Nat
deriving DecidableEq

/-- Rust: `struct ParagraphId { operation_id: u64, client_id: u64 }`. -/
structure ParagraphId where
  operation_id : Nat
  client_id : Nat
deriving DecidableEq

/-- Rust: `ParagraphId::from_node_id`. -/
def ParagraphId.from_node_id (node_id : NodeId) : ParagraphId :=
  { operation_id := node_id.operation_id, client_id := node_id.client_id }

/-- The derived `Ord` on `NodeId`: lexicographic on
`(operation_id, client_id)`.  This is the key comparison of the
`BTreeMap<NodeId, Action>` operation log. -/
def NodeId.keyLt (a b : NodeId) : Bool :=
  decide (a.operation_id < b.operation_id ∨
    (a.operation_id = b.operation_id ∧ a.client_id < b.client_id))

/-- Rust: `struct TextFormatChange { values_to_set: u32, value: u32 }`. -/
structure TextFormatChange where
  values_to_set : Nat
  value : Nat
deriving DecidableEq

/-- Rust: `TextFormatChange::default()` (derived `Default`). -/
def TextFormatChange.default : TextFormatChange :=
  { values_to_set := 0, value := 0 }

/-- Rust: `struct PartiallyFormattedText`. -/
structure PartiallyFormattedText where
  node_id : NodeId
  text : String
  format : TextFormatChange
deriving DecidableEq

/-- Rust: `struct NewParagraph`. -/
structure NewParagraph where
  node_id : ParagraphId
  text : List PartiallyFormattedText
deriving DecidableEq

/-- Rust: `struct TextAnchor { at_node: NodeId, at_index: Option<u32> }`. -/
structure TextAnchor where
  at_node : NodeId
  at_index : Option Nat
deriving DecidableEq

inductive ParagraphAnchorRelativity where
  | AtBeginning
  | AtEnd
deriving DecidableEq

structure ParagraphAnchor where
  paragraph_id : ParagraphId
  paragraph_anchor_relativity : ParagraphAnchorRelativity
deriving DecidableEq

inductive TextOrParagraphAnchor where
  | TextAnchor (a : TextAnchor)
  | ParagraphAnchor (a : ParagraphAnchor)
deriving DecidableEq

inductive ParagraphInsertPosition where
  | BeforeAnchor
  | EraseAnchorIfEmpty
  | AfterAnchor
deriving DecidableEq

/-- Rust: `struct ActionId {}` (an empty placeholder struct). -/
structure ActionId where
deriving DecidableEq

/-- Rust: `struct Format {}`. -/
structure Format where
deriving DecidableEq

/-- Rust: `struct ParagraphStyle {}`. -/
structure ParagraphStyle where
deriving DecidableEq

/-- Rust: `enum Action`.  `NonZeroI32` is modelled as `Int` (the nonzero
refinement is irrelevant here: no implemented code path reads the field). -/
inductive Action where
  | Insert (anchor : TextAnchor) (before_paragraphs : List PartiallyFormattedText)
      (paragraphs : Option (List NewParagraph × ParagraphId × List PartiallyFormattedText))
  | ParagraphInsert (anchor : ParagraphId) (position : ParagraphInsertPosition)
      (first_paragraph : NewParagraph)
      (additional_paragraphs : List (ParagraphId × NewParagraph))
  | FormatChange (begin_anchor : TextAnchor) (end_anchor : TextAnchor) (format : Format)
  | ParagraphStyleChange (paragraphs : List ParagraphId)
      (known_paragraph_splices : List ActionId) (paragraph_style : ParagraphStyle)
  | Erase (begin_anchor : TextAnchor) (end_anchor : TextAnchor) (known_splices : List ActionId)
  | SpliceInsert (anchor : TextAnchor) (erase_id : ActionId)
      (new_node_ids_if_necessary : List NodeId)
  | SpliceParagraphInsert (anchor : ParagraphId) (position : ParagraphInsertPosition)
      (erase_id : ActionId) (new_node_ids_if_necessary : List NodeId)
      (new_paragraph_style : ParagraphStyle)
  | UndoRedo (edit_id : ActionId) (undo_counter_change : Int)
deriving DecidableEq

/-- Rust: `enum TextNode`. -/
inductive TextNode where
  | FormatChange (c : TextFormatChange)
  | Text (node : NodeId) (offset : Nat) (offset_after : Option Nat) (text : String)
  | Tombstone (node : NodeId) (offset : Nat) (offset_after : Option Nat) (length : Nat)
deriving DecidableEq

inductive RelativePosition where
  | Before
  | AtBeginning
  | Middle
  | AtEnd
  | After
deriving DecidableEq

/-- The shared body of `TextNode::relative_positon` once
`(offset, offset_after, length)` have been extracted from a `Text` or
`Tombstone` node. -/
def relativeCore (self_offset : Nat) (self_offset_after : Option Nat) (length : Nat)
    (offset : Option Nat) : RelativePosition :=
  match offset with
  | none => if self_offset_after.isNone then RelativePosition.AtEnd else RelativePosition.After
  | some offset =>
      if offset < self_offset then RelativePosition.Before
      else if offset = self_offset then RelativePosition.AtBeginning
      else
        match self_offset_after with
        | some _ => RelativePosition.Middle
        | none =>
            if offset < self_offset + length then RelativePosition.Middle
            else RelativePosition.AtEnd

/-- Rust: `TextNode::relative_positon` (spelling kept as in the source).  `none`
models the `panic!` on a `FormatChange` node. -/
def TextNode.relative_positon (t : TextNode) (offset : Option Nat) : Option RelativePosition :=
  match t with
  | .Text _ self_offset self_offset_after text =>
      some (relativeCore self_offset self_offset_after text.length offset)
  | .Tombstone _ self_offset self_offset_after length =>
      some (relativeCore self_offset self_offset_after length offset)
  | .FormatChange _ => none

/-- Rust: `TextNode::contains`. -/
def TextNode.contains (t : TextNode) (anchor : TextAnchor) : Bool :=
  match t with
  | .Text node _ _ _ | .Tombstone node _ _ _ =>
      if node = anchor.at_node then
        match t.relative_positon anchor.at_index with
        | some RelativePosition.Before => false
        | some RelativePosition.AtBeginning => true
        | some RelativePosition.Middle => true
        | some RelativePosition.AtEnd => true
        | some RelativePosition.After => false
        | none => false
      else false
  | .FormatChange _ => false

/-- Rust: `TextNode::split_at`.  `none` models the panics: splitting a
`FormatChange` node, the `u32` underflow when `split_offset < offset`, and
`str::split_at` called past the end of the text. -/
def TextNode.split_at (t : TextNode) (split_offset : Nat) : Option (TextNode × TextNode) :=
  match t with
  | .Text node self_offset offset_after text =>
      if split_offset < self_offset then none
      else if text.length < split_offset - self_offset then none
      else some
        (.Text node self_offset (some split_offset)
            (String.mk (text.toList.take (split_offset - self_offset))),
          .Text node split_offset offset_after
            (String.mk (text.toList.drop (split_offset - self_offset))))
  | .Tombstone node self_offset offset_after length =>
      if split_offset < self_offset then none
      else if length < split_offset - self_offset then none
      else some
        (.Tombstone node self_offset (some split_offset) (split_offset - self_offset),
          .Tombstone node split_offset offset_after (length - (split_offset - self_offset)))
  | .FormatChange _ => none

/-- Rust: `TextNode::from_partially_formatted`.  The `values_to_set != 0`
branch of the source is an empty TODO, so the result is always the single
complete `Text` node. -/
def TextNode.from_partially_formatted (partially_formatted : PartiallyFormattedText) :
    List TextNode :=
  [TextNode.Text partially_formatted.node_id 0 none partially_formatted.text]

/-- Rust: `struct Paragraph`. -/
structure Paragraph where
  paragraph_id : ParagraphId
  contents : List TextNode
deriving DecidableEq

/-- Rust: `struct ParagraphTombstone`. -/
structure ParagraphTombstone where
  paragraph_id : ParagraphId
  contents : List TextNode
deriving DecidableEq

/-- Rust: `Paragraph::from_new_paragraph`. -/
def Paragraph.from_new_paragraph (p : NewParagraph) : Paragraph :=
  { paragraph_id := p.node_id,
    contents := p.text.map fun frag => TextNode.Text frag.node_id 0 none frag.text }

/-- Rust: `Paragraph::is_empty` (true when no `Text` node is present). -/
def Paragraph.is_empty (p : Paragraph) : Bool :=
  p.contents.all fun tn =>
    match tn with
    | TextNode.Text _ _ _ _ => false
    | _ => true

/-- Rust: `Paragraph::to_tombstone`. -/
def Paragraph.to_tombstone (p : Paragraph) : ParagraphTombstone :=
  { paragraph_id := p.paragraph_id, contents := p.contents }

/-- Rust: `Paragraph::origin` — the reserved paragraph with id `(0, 0)`. -/
def Paragraph.origin : Paragraph :=
  { paragraph_id := { operation_id := 0, client_id := 0 }, contents := [] }

/-- Rust: `enum ParagraphNode`. -/
inductive ParagraphNode where
  | Paragraph (p : Paragraph)
  | ParagraphTombstone (pt : ParagraphTombstone)
deriving DecidableEq

def ParagraphNode.paragraph_id : ParagraphNode → ParagraphId
  | .Paragraph p => p.paragraph_id
  | .ParagraphTombstone pt => pt.paragraph_id

def ParagraphNode.contents : ParagraphNode → List TextNode
  | .Paragraph p => p.contents
  | .ParagraphTombstone pt => pt.contents

/-- Models mutation through `ParagraphNode::mut_contents`: replace the
contents, keeping the live/tombstone constructor. -/
def ParagraphNode.with_contents : ParagraphNode → List TextNode → ParagraphNode
  | .Paragraph p, c => .Paragraph { p with contents := c }
  | .ParagraphTombstone pt, c => .ParagraphTombstone { pt with contents := c }

/-- Rust: `struct RenderedFormattedText`. -/
structure RenderedFormattedText where
  node : NodeId
  offset : Nat
  text : String
  last_fragment : Bool
deriving DecidableEq

/-- Rust: `struct RenderedParagraph`. -/
structure RenderedParagraph where
  paragraph_id : ParagraphId
  content : List RenderedFormattedText
deriving DecidableEq

/-- Rust: `RenderedParagraph::to_text` (fragments joined by `""`). -/
def RenderedParagraph.to_text (p : RenderedParagraph) : String :=
  String.intercalate "" (p.content.map fun ft => ft.text)

/-- Rust: `struct RenderedDocument`. -/
structure RenderedDocument where
  paragraphs : List RenderedParagraph
deriving DecidableEq

/-- Rust: `RenderedDocument::to_text` (paragraphs joined by `"\n"`). -/
def RenderedDocument.to_text (d : RenderedDocument) : String :=
  String.intercalate "\n" (d.paragraphs.map RenderedParagraph.to_text)

/-- Rust: `enum ClientSelection`.  The `Range` fields are named
`begin`/`end` in the source; `end` is reserved in Lean, so they are called
`begin_anchor`/`end_anchor` here. -/
inductive ClientSelection where
  | NotSelected
  | Caret (a : TextOrParagraphAnchor)
  | Range (begin_anchor end_anchor : TextOrParagraphAnchor)
deriving DecidableEq

/-- Rust: `struct DocumentState`. -/
structure DocumentState where
  paragraphs : List ParagraphNode
  client_selection : ClientSelection
deriving DecidableEq

/-- Rust: `DocumentState::empty`. -/
def DocumentState.empty : DocumentState :=
  { paragraphs := [ParagraphNode.Paragraph Paragraph.origin],
    client_selection := ClientSelection.NotSelected }

/-- Rust: `DocumentStateIter` without its borrow of the document; every
iterator function below takes the `DocumentState` explicitly instead. -/
structure DocumentStateIter where
  paragraph_index : Nat
  text_node_index : Option Nat
deriving DecidableEq

/-- Rust: `struct TextNodePosition`. -/
structure TextNodePosition where
  paragraph_index : Nat
  text_node_index : Nat
deriving DecidableEq

/-- Rust: `enum ParagraphOrTextNode` (holding values instead of borrows). -/
inductive ParagraphOrTextNode where
  | Paragraph (p : ParagraphNode)
  | TextNode (tn : TextNode)
deriving DecidableEq

/-- Rust: `DocumentState::iter` / `mut_iter` — an iterator at the start. -/
def DocumentState.iter (_d : DocumentState) : DocumentStateIter :=
  { paragraph_index := 0, text_node_index := none }

/-- Rust: `DocumentStateIter::current`. -/
def DocumentStateIter.current (d : DocumentState) (it : DocumentStateIter) :
    Option ParagraphOrTextNode := do
  let p ← d.paragraphs.get? it.paragraph_index
  match it.text_node_index with
  | some text_node_index => do
      let text_node ← (ParagraphNode.contents p).get? text_node_index
      pure (ParagraphOrTextNode.TextNode text_node)
  | none => pure (ParagraphOrTextNode.Paragraph p)

/-- Rust: `DocumentStateIter::next_paragraph`. -/
def DocumentStateIter.next_paragraph (it : DocumentStateIter) : DocumentStateIter :=
  { paragraph_index := it.paragraph_index + 1, text_node_index := none }

/-- Rust: `DocumentStateIter::prev_paragraph`.  `none` models the debug-mode
`usize` underflows (`paragraph_index - 1` at index 0, and
`contents().len() - 1` on an empty paragraph). -/
def DocumentStateIter.prev_paragraph (d : DocumentState) (it : DocumentStateIter) :
    Option DocumentStateIter :=
  if it.paragraph_index = 0 then none
  else
    let pi := it.paragraph_index - 1
    match d.paragraphs.get? pi with
    | none => some { paragraph_index := pi, text_node_index := none }
    | some p =>
        if (ParagraphNode.contents p).length = 0 then none
        else some { paragraph_index := pi,
                    text_node_index := some ((ParagraphNode.contents p).length - 1) }

/-- Rust: `DocumentStateIter::prev`.  The source computes
`*text_node_index - 1 >= 0`, whose subtraction underflows (debug panic,
modelled as `none`) when the index is 0; otherwise the comparison is
trivially true and the index is decremented. -/
def DocumentStateIter.prev (d : DocumentState) (it : DocumentStateIter) :
    Option DocumentStateIter :=
  match d.paragraphs.get? it.paragraph_index with
  | none => some it
  | some _ =>
      match it.text_node_index with
      | some text_node_index =>
          if text_node_index = 0 then none
          else some { it with text_node_index := some (text_node_index - 1) }
      | none => DocumentStateIter.prev_paragraph d it

/-- Rust: `DocumentStateIter::next`. -/
def DocumentStateIter.next (d : DocumentState) (it : DocumentStateIter) : DocumentStateIter :=
  match d.paragraphs.get? it.paragraph_index with
  | none => it
  | some p =>
      let text_nodes_len := (ParagraphNode.contents p).length
      match it.text_node_index with
      | some text_node_index =>
          if text_node_index + 1 < text_nodes_len then
            { it with text_node_index := some (text_node_index + 1) }
          else DocumentStateIter.next_paragraph it
      | none =>
          if text_nodes_len ≠ 0 then { it with text_node_index := some 0 }
          else DocumentStateIter.next_paragraph it

/-- Total number of iterator slots of the document (each paragraph plus its
text nodes); an upper bound on the length of any strictly advancing
traversal.  Used as fuel for the while-style recursions of the source. -/
def DocumentState.slotCount (d : DocumentState) : Nat :=
  d.paragraphs.foldl (fun a p => a + 1 + (ParagraphNode.contents p).length) 0

/-- Rust: `DocumentStateIter::skip_tombstone_incr`.  The source recursion
advances strictly through the document, so `slotCount + 2` fuel always
suffices; running out of fuel yields `none`. -/
def DocumentStateIter.skip_tombstone_incr (d : DocumentState) :
    Nat → DocumentStateIter → Option DocumentStateIter
  | 0, _ => none
  | fuel + 1, it =>
      match d.paragraphs.get? it.paragraph_index with
      | some (ParagraphNode.ParagraphTombstone _) =>
          skip_tombstone_incr d fuel (DocumentStateIter.next_paragraph it)
      | _ =>
          match DocumentStateIter.current d it with
          | some (ParagraphOrTextNode.Paragraph (ParagraphNode.ParagraphTombstone _))
          | some (ParagraphOrTextNode.TextNode (TextNode.Tombstone _ _ _ _)) =>
              skip_tombstone_incr d fuel (DocumentStateIter.next d it)
          | _ => some it

/-- Rust: `DocumentStateIter::skip_tombstone_decr` (fuelled like
`skip_tombstone_incr`); `none` also models the underflow panics of
`prev`/`prev_paragraph`. -/
def DocumentStateIter.skip_tombstone_decr (d : DocumentState) :
    Nat → DocumentStateIter → Option DocumentStateIter
  | 0, _ => none
  | fuel + 1, it =>
      match d.paragraphs.get? it.paragraph_index with
      | some (ParagraphNode.ParagraphTombstone _) => do
          let it1 ← DocumentStateIter.prev_paragraph d it
          skip_tombstone_decr d fuel it1
      | _ =>
          match DocumentStateIter.current d it with
          | some (ParagraphOrTextNode.Paragraph (ParagraphNode.ParagraphTombstone _))
          | some (ParagraphOrTextNode.TextNode (TextNode.Tombstone _ _ _ _)) => do
              let it1 ← DocumentStateIter.prev d it
              skip_tombstone_decr d fuel it1
          | _ => some it

/-- The loop body of `DocumentState::find`, fuelled (the iterator strictly
advances, so `slotCount + 2` fuel always suffices). -/
def DocumentState.findAux (d : DocumentState) (anchor : TextOrParagraphAnchor) :
    Nat → DocumentStateIter → Option DocumentStateIter
  | 0, _ => none
  | fuel + 1, it =>
      match DocumentStateIter.current d it with
      | none => none
      | some pos =>
          match pos, anchor with
          | ParagraphOrTextNode.Paragraph pn, TextOrParagraphAnchor.ParagraphAnchor a =>
              if ParagraphNode.paragraph_id pn = a.paragraph_id then some it
              else findAux d anchor fuel (DocumentStateIter.next d it)
          | ParagraphOrTextNode.TextNode tn, TextOrParagraphAnchor.TextAnchor a =>
              if tn.contains a then some it
              else findAux d anchor fuel (DocumentStateIter.next d it)
          | _, _ => findAux d anchor fuel (DocumentStateIter.next d it)

/-- Rust: `DocumentState::find`. -/
def DocumentState.find (d : DocumentState) (anchor : TextOrParagraphAnchor) :
    Option DocumentStateIter :=
  DocumentState.findAux d anchor (d.slotCount + 2) d.iter

/-- The loop body of `DocumentState::find_text_node`, fuelled. -/
def DocumentState.find_text_node_aux (d : DocumentState) (node_id : NodeId) :
    Nat → DocumentStateIter → Option TextNodePosition
  | 0, _ => none
  | fuel + 1, it =>
      match DocumentStateIter.current d it with
      | none => none
      | some (ParagraphOrTextNode.Paragraph _) =>
          find_text_node_aux d node_id fuel (DocumentStateIter.next d it)
      | some (ParagraphOrTextNode.TextNode tn) =>
          match tn with
          | TextNode.Text node _ _ _ | TextNode.Tombstone node _ _ _ =>
              if node = node_id then
                -- the source unwraps `text_node_index`, which is `some`
                -- whenever the iterator is at a text node
                some { paragraph_index := it.paragraph_index,
                       text_node_index := it.text_node_index.getD 0 }
              else find_text_node_aux d node_id fuel (DocumentStateIter.next d it)
          | TextNode.FormatChange _ =>
              find_text_node_aux d node_id fuel (DocumentStateIter.next d it)

/-- Rust: `DocumentState::find_text_node`. -/
def DocumentState.find_text_node (d : DocumentState) (node_id : NodeId) :
    Option TextNodePosition :=
  DocumentState.find_text_node_aux d node_id (d.slotCount + 2) d.iter

/-- Rust: `DocumentState::find_mutable` — a stub (its body is `//todo!()`):
it ignores the anchor and returns `mut_iter()`, an iterator at the start of
the document. -/
def DocumentState.find_mutable (_d : DocumentState) (_anchor : TextOrParagraphAnchor) :
    DocumentStateIter :=
  { paragraph_index := 0, text_node_index := none }

/-- Rust: `DocumentState::change_selection`. -/
def DocumentState.change_selection (d : DocumentState) (client_selection : ClientSelection) :
    DocumentState :=
  { d with client_selection := client_selection }

/-- The caret used by the `unwrap_or` in `get_non_tombstone_selection`: the origin
paragraph `(0, 0)`, `AtBeginning`.  The same value is the caret `main` sets
on both clients. -/
def origin_caret : ClientSelection :=
  ClientSelection.Caret (TextOrParagraphAnchor.ParagraphAnchor
    { paragraph_id := { operation_id := 0, client_id := 0 },
      paragraph_anchor_relativity := ParagraphAnchorRelativity.AtBeginning })

/-- The match block that appears (textually twice) inside
`get_non_tombstone_selection`, mapping the node next to the anchor to the
projected caret: a matching live paragraph or text node keeps the anchor,
any other live paragraph yields an `AtEnd` paragraph caret, any other live
text node yields a `TextAnchor(node, offset_after)` caret, and everything
else (tombstones, format markers) yields `none`. -/
def resolve_found_node (node : ParagraphOrTextNode) (a : TextOrParagraphAnchor) :
    Option ClientSelection :=
  match node, a with
  | ParagraphOrTextNode.Paragraph (ParagraphNode.Paragraph p),
      TextOrParagraphAnchor.ParagraphAnchor pa =>
      if pa.paragraph_id = p.paragraph_id then
        some (ClientSelection.Caret (TextOrParagraphAnchor.ParagraphAnchor pa))
      else
        some (ClientSelection.Caret (TextOrParagraphAnchor.ParagraphAnchor
          { paragraph_id := p.paragraph_id,
            paragraph_anchor_relativity := ParagraphAnchorRelativity.AtEnd }))
  | ParagraphOrTextNode.Paragraph (ParagraphNode.Paragraph p), _ =>
      some (ClientSelection.Caret (TextOrParagraphAnchor.ParagraphAnchor
        { paragraph_id := p.paragraph_id,
          paragraph_anchor_relativity := ParagraphAnchorRelativity.AtEnd }))
  | ParagraphOrTextNode.TextNode (TextNode.Text node _ offset_after _),
      TextOrParagraphAnchor.TextAnchor ta =>
      if ta.at_node = node then
        some (ClientSelection.Caret (TextOrParagraphAnchor.TextAnchor ta))
      else
        some (ClientSelection.Caret (TextOrParagraphAnchor.TextAnchor
          { at_node := node, at_index := offset_after }))
  | ParagraphOrTextNode.TextNode (TextNode.Text node _ offset_after _), _ =>
      some (ClientSelection.Caret (TextOrParagraphAnchor.TextAnchor
        { at_node := node, at_index := offset_after }))
  | _, _ => none

/-- Rust: `DocumentState::get_non_tombstone_selection`.  The outer `Option`
models panics (the `todo!()` on a stored `Range` selection and the underflow
panics inside the tombstone-skipping walks); the internal `Option` of the source
chaining ending in `unwrap_or(origin caret)` is written out explicitly. -/
def DocumentState.get_non_tombstone_selection (d : DocumentState) : Option ClientSelection :=
  match d.client_selection with
  | ClientSelection.NotSelected => some ClientSelection.NotSelected
  | ClientSelection.Range _ _ => none
  | ClientSelection.Caret a =>
      match d.find a with
      | none => some origin_caret
      | some it => do
          let it1 ← DocumentStateIter.skip_tombstone_decr d (d.slotCount + 2) it
          let first_try : Option ClientSelection :=
            match DocumentStateIter.current d it1 with
            | some node => resolve_found_node node a
            | none => none
          match first_try with
          | some sel => some sel
          | none => do
              let it2 ← DocumentStateIter.skip_tombstone_incr d (d.slotCount + 2) it1
              match DocumentStateIter.current d it2 with
              | none => some origin_caret
              | some node =>
                  match resolve_found_node node a with
                  | none => some origin_caret
                  | some sel => some sel

/-- Models `Vec::insert` (shift the suffix right).  The source panics when
the index exceeds the length; at its single call site the index is always in
range. -/
def listInsertAt {α : Type} (l : List α) (i : Nat) (x : α) : List α :=
  l.take i ++ [x] ++ l.drop i

/-- One iteration of the `DocumentState::apply_operations` replay loop.
`none` models the panics: the `todo!()` arms (`BeforeAnchor`/`AfterAnchor`
paragraph insert, `Erase`, and every variant caught by the final `_` arm),
the `panic!`s (`additional_paragraphs`, missing anchor paragraph), and the
`unwrap` on `find_text_node`.  On a panic the partially mutated fold target
is discarded, exactly as the unwinding Rust caller never observes it. -/
def DocumentState.apply_operation (d : DocumentState) (op : NodeId × Action) :
    Option DocumentState :=
  match op.2 with
  | Action.ParagraphInsert anchor position first_paragraph additional_paragraphs =>
      let it := d.find_mutable (TextOrParagraphAnchor.ParagraphAnchor
        { paragraph_id := anchor,
          paragraph_anchor_relativity := ParagraphAnchorRelativity.AtBeginning })
      let paragraph_index := it.paragraph_index
      match position with
      | ParagraphInsertPosition.BeforeAnchor => none
      | ParagraphInsertPosition.AfterAnchor => none
      | ParagraphInsertPosition.EraseAnchorIfEmpty =>
          match d.paragraphs.get? paragraph_index with
          | none => none
          | some p =>
              let paragraphs1 :=
                match p with
                | ParagraphNode.Paragraph pp =>
                    if pp.is_empty then
                      d.paragraphs.set paragraph_index
                        (ParagraphNode.ParagraphTombstone pp.to_tombstone)
                    else d.paragraphs
                | ParagraphNode.ParagraphTombstone _ => d.paragraphs
              if additional_paragraphs ≠ [] then none
              else
                let ps2 := listInsertAt paragraphs1 (paragraph_index + 1)
                  (ParagraphNode.Paragraph (Paragraph.from_new_paragraph first_paragraph))
                some { d with paragraphs := ps2 }
  | Action.Insert anchor before_paragraphs paragraphs =>
      match d.find_text_node anchor.at_node with
      | none => none
      | some anchor_text_pos =>
          match d.paragraphs.get? anchor_text_pos.paragraph_index with
          | none => none
          | some p =>
              let contents := ParagraphNode.contents p
              let fragments := before_paragraphs.flatMap TextNode.from_partially_formatted
              let tni := anchor_text_pos.text_node_index
              -- (contents kept in the anchor paragraph, leftover after the anchor)
              let step : Option (List TextNode × List TextNode) :=
                match anchor.at_index with
                | some at_index =>
                    if at_index = 0 then
                      some (contents.take tni ++ fragments, contents.drop tni)
                    else
                      match contents.get? tni with
                      | none => none
                      | some anchor_node =>
                          match anchor_node.split_at at_index with
                          | none => none
                          | some (before, after) =>
                              some (contents.take tni ++ [before] ++ fragments,
                                after :: contents.drop (tni + 1))
                | none =>
                    some (contents.take (tni + 1) ++ fragments, contents.drop (tni + 1))
              match step with
              | none => none
              | some (front_contents, after_anchor_leftover) =>
                  match paragraphs with
                  | some (new_paragraphs, after_paragraph_id, texts) =>
                      let ps1 := d.paragraphs.set anchor_text_pos.paragraph_index
                        (ParagraphNode.with_contents p front_contents)
                      let kept := ps1.take (anchor_text_pos.paragraph_index + 1)
                      let trailing_paragraphs := ps1.drop (anchor_text_pos.paragraph_index + 1)
                      let new_after_paragraph := ParagraphNode.Paragraph
                        { paragraph_id := after_paragraph_id,
                          contents := texts.flatMap TextNode.from_partially_formatted
                            ++ after_anchor_leftover }
                      let middle := new_paragraphs.map fun np =>
                        ParagraphNode.Paragraph (Paragraph.from_new_paragraph np)
                      let ps2 := kept ++ middle ++ [new_after_paragraph] ++ trailing_paragraphs
                      some { d with paragraphs := ps2 }
                  | none =>
                      let ps2 := d.paragraphs.set anchor_text_pos.paragraph_index
                        (ParagraphNode.with_contents p (front_contents ++ after_anchor_leftover))
                      some { d with paragraphs := ps2 }
  | Action.Erase _ _ _ => none
  | _ => none

/-- Rust: `DocumentState::apply_operations` — replay the ascending operation
log against the state. -/
def DocumentState.apply_operations (d : DocumentState) (ordered_ops : List (NodeId × Action)) :
    Option DocumentState :=
  ordered_ops.foldl (fun acc op => acc.bind fun s => s.apply_operation op) (some d)

/-- Rust: `DocumentState::render`. -/
def DocumentState.render (d : DocumentState) : RenderedDocument :=
  { paragraphs := d.paragraphs.filterMap fun pn =>
      match pn with
      | ParagraphNode.Paragraph p =>
          some { paragraph_id := p.paragraph_id,
                 content := p.contents.filterMap fun tn =>
                   match tn with
                   | TextNode.FormatChange _ => none
                   | TextNode.Text node offset offset_after text =>
                       some { node := node, offset := offset, text := text,
                              last_fragment := offset_after.isNone }
                   | TextNode.Tombstone _ _ _ _ => none }
      | ParagraphNode.ParagraphTombstone _ => none }

/-- Insertion into the `BTreeMap<NodeId, Action>`, modelled as a strictly
key-sorted association list: an existing binding of the same key is
replaced. -/
def btree_insert (l : List (NodeId × Action)) (node_id : NodeId) (action : Action) :
    List (NodeId × Action) :=
  match l with
  | [] => [(node_id, action)]
  | (k, a) :: t =>
      if NodeId.keyLt node_id k then (node_id, action) :: (k, a) :: t
      else if node_id = k then (node_id, action) :: t
      else (k, a) :: btree_insert t node_id action

/-- Rust: `struct Operations`. -/
structure Operations where
  ordered_ops : List (NodeId × Action)
deriving DecidableEq

/-- Rust: `Operations::empty`. -/
def Operations.empty : Operations := { ordered_ops := [] }

/-- Rust: `Operations::add_or_replace_node`. -/
def Operations.add_or_replace_node (ops : Operations) (node_id : NodeId) (action : Action) :
    Operations :=
  { ordered_ops := btree_insert ops.ordered_ops node_id action }

/-- Rust: `Operations::maximum_operation_id` (`.max().unwrap_or_default()`
over the `operation_id` of each key). -/
def Operations.maximum_operation_id (ops : Operations) : Nat :=
  (ops.ordered_ops.map fun op => op.1.operation_id).foldl Nat.max 0

/-- Rust: `enum Input`. -/
inductive Input where
  | Text (s : String)
  | ParagraphBreak
deriving DecidableEq

/-- Rust: `struct Client`.  `id` is a `NonZeroU64` in the source; it is
modelled as a `Nat` and the nonzero guarantee is carried as a hypothesis
where a claim needs it. -/
structure Client where
  id : Nat
  document : DocumentState
  operations : Operations
  operation_counter : Option Nat
deriving DecidableEq

/-- Rust: `Client::create`. -/
def Client.create (id : Nat) : Client :=
  { id := id, document := DocumentState.empty, operations := Operations.empty,
    operation_counter := none }

/-- Rust: `Client::change_selection`. -/
def Client.change_selection (c : Client) (client_selection : ClientSelection) : Client :=
  { c with document := c.document.change_selection client_selection }

/-- Rust: `Client::next_operation_id` — returns the new id and the client
with the counter stored. -/
def Client.next_operation_id (c : Client) : Nat × Client :=
  let new_value := Nat.max (c.operation_counter.getD 0) c.operations.maximum_operation_id + 1
  (new_value, { c with operation_counter := some new_value })

/-- Rust: `Client::new_node_id`. -/
def Client.new_node_id (c : Client) : NodeId × Client :=
  let r := c.next_operation_id
  ({ operation_id := r.1, client_id := c.id }, r.2)

/-- Rust: `Client::get_non_tombstone_selection`. -/
def Client.get_non_tombstone_selection (c : Client) : Option ClientSelection :=
  c.document.get_non_tombstone_selection

/-- Rust: `Client::add_input`.  `none` models the panics (`ParagraphBreak`
input, typing over a range selection — which the source reaches as the
own `todo!()` of the resolver — and any panic raised while re-folding the log);
each of those is raised before the log or document of the client is updated.
The success path preserves the statement order of the source: the log gains the
new op, the fold of the grown log builds `new_document`, `change_selection`
sets the caret on the old document, and finally the document (its just-set
selection included) is replaced by `new_document`. -/
def Client.add_input (c : Client) (input : Input) : Option Client :=
  match input with
  | Input.ParagraphBreak => none
  | Input.Text text =>
      match c.get_non_tombstone_selection with
      | none => none
      | some ClientSelection.NotSelected => some c
      | some (ClientSelection.Range _ _) => none
      | some (ClientSelection.Caret anchor) =>
          match anchor with
          | TextOrParagraphAnchor.TextAnchor a =>
              let r := c.new_node_id
              let node_id := r.1
              let operation := Action.Insert a
                [{ node_id := node_id, text := text, format := TextFormatChange.default }] none
              let new_caret := TextOrParagraphAnchor.TextAnchor
                { at_node := node_id, at_index := none }
              let c2 := { r.2 with
                operations := r.2.operations.add_or_replace_node node_id operation }
              match DocumentState.apply_operations DocumentState.empty c2.operations.ordered_ops with
              | none => none
              | some new_document =>
                  let c3 := c2.change_selection (ClientSelection.Caret new_caret)
                  some { c3 with document := new_document }
          | TextOrParagraphAnchor.ParagraphAnchor anchor =>
              let r := c.new_node_id
              let node_id := r.1
              let operation := Action.ParagraphInsert anchor.paragraph_id
                ParagraphInsertPosition.EraseAnchorIfEmpty
                { node_id := ParagraphId.from_node_id node_id,
                  text := [{ node_id := node_id, text := text,
                             format := TextFormatChange.default }] }
                []
              let new_caret := TextOrParagraphAnchor.TextAnchor
                { at_node := node_id, at_index := none }
              let c2 := { r.2 with
                operations := r.2.operations.add_or_replace_node node_id operation }
              match DocumentState.apply_operations DocumentState.empty c2.operations.ordered_ops with
              | none => none
              | some new_document =>
                  let c3 := c2.change_selection (ClientSelection.Caret new_caret)
                  some { c3 with document := new_document }

/-- Rust: `Client::get_rendered_document` — fold the log from the empty
document and render the result. -/
def Client.get_rendered_document (c : Client) : Option RenderedDocument := do
  let doc_state ← DocumentState.apply_operations DocumentState.empty c.operations.ordered_ops
  pure doc_state.render

/-- Building an operation log by a sequence of deliveries through
`Operations::add_or_replace_node`, starting from the empty log: this is how a
log of a client comes to hold a set of operations, in whatever order they were
minted locally or ingested from peers. -/
def build_log (insertions : List (NodeId × Action)) : Operations :=
  insertions.foldl (fun ops p => ops.add_or_replace_node p.1 p.2) Operations.empty

/-- The strict key-sortedness invariant of the `BTreeMap` operation log. -/
def log_sorted (l : List (NodeId × Action)) : Prop :=
  l.Pairwise fun x y => NodeId.keyLt x.1 y.1 = true

/-- Scenario S3 of the spec (and of `main`): a fresh client with id 2, caret
on the origin paragraph, types `"a"`. -/
def client2_typed : Option Client :=
  Client.add_input (Client.change_selection (Client.create 2) origin_caret) (Input.Text "a")

/-- Scenario S3: a fresh client with id 3, caret on the origin paragraph,
types `"b"`. -/
def client3_typed : Option Client :=
  Client.add_input (Client.change_selection (Client.create 3) origin_caret) (Input.Text "b")

/-- Deliver every operation held by `other` into the log of `c` through
`Operations::add_or_replace_node`, the way `main` exchanges operations. -/
def ingest_all (c other : Client) : Client :=
  let ops2 := other.operations.ordered_ops.foldl
    (fun ops p => ops.add_or_replace_node p.1 p.2) c.operations
  { c with operations := ops2 }

/-- Client 2 after the S3 exchange: it typed `"a"`, client 3 typed `"b"`,
and the two operations were exchanged. -/
def client2_exchanged : Option Client := do
  let c2 ← client2_typed
  let c3 ← client3_typed
  pure (ingest_all c2 c3)

/-- Client 3 after the S3 exchange. -/
def client3_exchanged : Option Client := do
  let c2 ← client2_typed
  let c3 ← client3_typed
  pure (ingest_all c3 c2)

/-- The operation client 2 emits in scenario S3 (a concrete log entry used by
several witnesses). -/
def op_a : NodeId × Action :=
  (⟨1, 2⟩, Action.ParagraphInsert ⟨0, 0⟩ ParagraphInsertPosition.EraseAnchorIfEmpty
    ⟨⟨1, 2⟩, [⟨⟨1, 2⟩, "a", ⟨0, 0⟩⟩]⟩ [])

/-- The operation client 3 emits in scenario S3. -/
def op_b : NodeId × Action :=
  (⟨1, 3⟩, Action.ParagraphInsert ⟨0, 0⟩ ParagraphInsertPosition.EraseAnchorIfEmpty
    ⟨⟨1, 3⟩, [⟨⟨1, 3⟩, "b", ⟨0, 0⟩⟩]⟩ [])

/-- A concrete client holding one operation and a stored counter (a witness
input). -/
def c7_client : Client :=
  { Client.create 2 with operations := Operations.mk [op_a], operation_counter := some 1 }

/-- A concrete client that has only ingested a remote operation: its log is
non-empty while its counter is still unset (a witness input). -/
def c7_ingest_client : Client :=
  { Client.create 2 with operations := Operations.mk [op_b] }


/-! ### Order lemmas for the `BTreeMap` key comparison -/

theorem keyLt_iff {a b : NodeId} :
    NodeId.keyLt a b = true ↔
      (a.operation_id < b.operation_id ∨
        (a.operation_id = b.operation_id ∧ a.client_id < b.client_id)) := by
  simp [NodeId.keyLt]

theorem keyLt_irrefl (a : NodeId) : NodeId.keyLt a a = false := by
  simp [NodeId.keyLt]

theorem keyLt_trans {a b c : NodeId} (h1 : NodeId.keyLt a b = true)
    (h2 : NodeId.keyLt b c = true) : NodeId.keyLt a c = true := by
  rw [keyLt_iff] at h1 h2 ⊢
  omega

theorem keyLt_total {a b : NodeId} (h1 : NodeId.keyLt a b = false) (h2 : a ≠ b) :
    NodeId.keyLt b a = true := by
  rcases a with ⟨ao, ac⟩
  rcases b with ⟨bo, bc⟩
  simp [NodeId.keyLt] at h1 ⊢
  simp [NodeId.mk.injEq] at h2
  omega

theorem keyLt_asymm {a b : NodeId} (h1 : NodeId.keyLt a b = true)
    (h2 : NodeId.keyLt b a = true) : False := by
  have h3 := keyLt_trans h1 h2
  rw [keyLt_irrefl] at h3
  exact Bool.false_ne_true h3

/-! ### The operation log: sorted insertion -/

theorem mem_btree_insert {p : NodeId × Action} :
    ∀ {l : List (NodeId × Action)} {id : NodeId} {act : Action},
      p ∈ btree_insert l id act → p = (id, act) ∨ p ∈ l := by
  intro l
  induction l with
  | nil =>
      intro id act h
      simp [btree_insert] at h
      exact Or.inl h
  | cons hd t ih =>
      intro id act h
      rw [btree_insert] at h
      split at h
      · rcases List.mem_cons.mp h with h1 | h1
        · exact Or.inl h1
        · exact Or.inr h1
      · split at h
        · rcases List.mem_cons.mp h with h1 | h1
          · exact Or.inl h1
          · exact Or.inr (List.mem_cons_of_mem _ h1)
        · rcases List.mem_cons.mp h with h1 | h1
          · exact Or.inr (h1 ▸ List.mem_cons_self _ _)
          · rcases ih h1 with h2 | h2
            · exact Or.inl h2
            · exact Or.inr (List.mem_cons_of_mem _ h2)

theorem log_sorted_btree_insert :
    ∀ {l : List (NodeId × Action)} {id : NodeId} {act : Action},
      log_sorted l → log_sorted (btree_insert l id act) := by
  intro l
  induction l with
  | nil =>
      intro id act _
      simp [btree_insert, log_sorted]
  | cons hd t ih =>
      intro id act hs
      rcases List.pairwise_cons.mp hs with ⟨hhd, ht⟩
      rw [btree_insert]
      split
      · -- new key strictly below the head key
        refine List.pairwise_cons.mpr ⟨?_, hs⟩
        intro y hy
        rcases List.mem_cons.mp hy with rfl | hyt
        · assumption
        · exact keyLt_trans (by assumption) (hhd y hyt)
      · split
        · -- same key as the head: replace the head binding
          refine List.pairwise_cons.mpr ⟨?_, ht⟩
          intro y hy
          have h3 : NodeId.keyLt hd.1 y.1 = true := hhd y hy
          have heq : id = hd.1 := by assumption
          rw [heq]
          exact h3
        · -- recurse into the tail
          refine List.pairwise_cons.mpr ⟨?_, ih ht⟩
          intro y hy
          rcases mem_btree_insert hy with rfl | hyt
          · have hne : id ≠ hd.1 := by assumption
            have hf : NodeId.keyLt id hd.1 = false := Bool.of_not_eq_true (by assumption)
            exact keyLt_total hf hne
          · exact hhd y hyt

theorem btree_insert_mem_self :
    ∀ {l : List (NodeId × Action)} {id : NodeId} {act : Action},
      log_sorted l → (id, act) ∈ l → btree_insert l id act = l := by
  intro l
  induction l with
  | nil =>
      intro id act _ hm
      exact absurd hm (List.not_mem_nil _)
  | cons hd t ih =>
      intro id act hs hm
      rcases List.pairwise_cons.mp hs with ⟨hhd, ht⟩
      rw [btree_insert]
      rcases List.mem_cons.mp hm with heq | hmt
      · have hk : id = hd.1 := by rw [← heq]
        have hlt : NodeId.keyLt id hd.1 = false := by
          rw [hk]
          exact keyLt_irrefl hd.1
        rw [if_neg (by simp [hlt]), if_pos hk, heq]
      · have hlt2 : NodeId.keyLt hd.1 id = true := hhd (id, act) hmt
        have hlt : NodeId.keyLt id hd.1 = false := by
          cases h : NodeId.keyLt id hd.1 with
          | false => rfl
          | true => exact absurd (keyLt_asymm h hlt2) (fun f => f)
        have hne : id ≠ hd.1 := by
          intro heq
          rw [heq, keyLt_irrefl] at hlt2
          exact Bool.false_ne_true hlt2
        rw [if_neg (by simp [hlt]), if_neg hne, ih ht hmt]

theorem log_sorted_eq_of_mem_iff :
    ∀ {l1 l2 : List (NodeId × Action)}, log_sorted l1 → log_sorted l2 →
      (∀ p, p ∈ l1 ↔ p ∈ l2) → l1 = l2 := by
  intro l1
  induction l1 with
  | nil =>
      intro l2 _ _ h
      cases l2 with
      | nil => rfl
      | cons y t2 => exact absurd ((h y).mpr (List.mem_cons_self _ _)) (List.not_mem_nil y)
  | cons x t1 ih =>
      intro l2 hs1 hs2 h
      cases l2 with
      | nil => exact absurd ((h x).mp (List.mem_cons_self _ _)) (List.not_mem_nil x)
      | cons y t2 =>
          rcases List.pairwise_cons.mp hs1 with ⟨hx, ht1⟩
          rcases List.pairwise_cons.mp hs2 with ⟨hy, ht2⟩
          have hxy : x = y := by
            rcases List.mem_cons.mp ((h x).mp (List.mem_cons_self _ _)) with h1 | h1
            · exact h1
            · rcases List.mem_cons.mp ((h y).mpr (List.mem_cons_self _ _)) with h2 | h2
              · exact h2.symm
              · exact absurd (keyLt_asymm (hy x h1) (hx y h2)) (fun f => f)
          subst hxy
          have htails : ∀ p, p ∈ t1 ↔ p ∈ t2 := by
            intro p
            constructor
            · intro hp
              rcases List.mem_cons.mp ((h p).mp (List.mem_cons_of_mem _ hp)) with rfl | h2
              · have h3 := hx p hp
                rw [keyLt_irrefl] at h3
                exact absurd h3 Bool.false_ne_true
              · exact h2
            · intro hp
              rcases List.mem_cons.mp ((h p).mpr (List.mem_cons_of_mem _ hp)) with rfl | h2
              · have h3 := hy p hp
                rw [keyLt_irrefl] at h3
                exact absurd h3 Bool.false_ne_true
              · exact h2
          rw [ih ht1 ht2 htails]

theorem build_log_sorted (s : List (NodeId × Action)) :
    log_sorted (build_log s).ordered_ops := by
  suffices h : ∀ ops : Operations, log_sorted ops.ordered_ops →
      log_sorted ((s.foldl (fun ops p => ops.add_or_replace_node p.1 p.2) ops).ordered_ops) by
    exact h Operations.empty (by simp [Operations.empty, log_sorted])
  induction s with
  | nil =>
      intro ops h
      exact h
  | cons hd t ih =>
      intro ops h
      exact ih _ (log_sorted_btree_insert h)

/-! ### Bounds for `maximum_operation_id` -/

theorem acc_le_foldl_max : ∀ (xs : List Nat) (acc : Nat), acc ≤ xs.foldl Nat.max acc := by
  intro xs
  induction xs with
  | nil =>
      intro acc
      exact Nat.le_refl acc
  | cons hd t ih =>
      intro acc
      exact Nat.le_trans (Nat.le_max_left acc hd) (ih (Nat.max acc hd))

theorem le_foldl_max : ∀ (xs : List Nat) (acc x : Nat), x ∈ xs → x ≤ xs.foldl Nat.max acc := by
  intro xs
  induction xs with
  | nil =>
      intro acc x h
      exact absurd h (List.not_mem_nil _)
  | cons hd t ih =>
      intro acc x h
      rcases List.mem_cons.mp h with rfl | h1
      · exact Nat.le_trans (Nat.le_max_right acc x) (acc_le_foldl_max t (Nat.max acc x))
      · exact ih (Nat.max acc hd) x h1

theorem mem_le_maximum_operation_id {ops : Operations} {p : NodeId × Action}
    (h : p ∈ ops.ordered_ops) : p.1.operation_id ≤ ops.maximum_operation_id :=
  le_foldl_max _ 0 _ (List.mem_map_of_mem (fun op => op.1.operation_id) h)

/-! ### Refused operations never produce a state -/

theorem apply_operations_none_acc (l : List (NodeId × Action)) :
    l.foldl (fun acc op => acc.bind fun s => DocumentState.apply_operation s op) none = none := by
  induction l with
  | nil => rfl
  | cons hd t ih =>
      rw [List.foldl_cons]
      exact ih

theorem apply_operations_with_refused (d : DocumentState) (pre post : List (NodeId × Action))
    (x : NodeId × Action) (hx : ∀ s : DocumentState, s.apply_operation x = none) :
    DocumentState.apply_operations d (pre ++ x :: post) = none := by
  rw [DocumentState.apply_operations, List.foldl_append, List.foldl_cons]
  cases h : pre.foldl (fun acc op => acc.bind fun s => s.apply_operation op) (some d) with
  | none =>
      exact apply_operations_none_acc post
  | some s =>
      show post.foldl (fun acc op => acc.bind fun s => s.apply_operation op)
        (DocumentState.apply_operation s x) = none
      rw [hx s]
      exact apply_operations_none_acc post

/-! ### The claims -/

/-- C1: for every pair of clients that end up holding the same set of
`(OpId, Action)` pairs in their operation logs — each log built by any
sequence of `add_or_replace_node` deliveries, in any order — folding the log
from the empty document and rendering the result produces identical text on
both clients. -/
theorem convergence_same_log_set (cA cB : Client) (sA sB : List (NodeId × Action))
    (hA : cA.operations = build_log sA) (hB : cB.operations = build_log sB)
    (h : ∀ p, p ∈ cA.operations.ordered_ops ↔ p ∈ cB.operations.ordered_ops) :
    (Client.get_rendered_document cA).map RenderedDocument.to_text
      = (Client.get_rendered_document cB).map RenderedDocument.to_text := by
  have hsA : log_sorted cA.operations.ordered_ops := by
    rw [hA]
    exact build_log_sorted sA
  have hsB : log_sorted cB.operations.ordered_ops := by
    rw [hB]
    exact build_log_sorted sB
  have e : cA.operations.ordered_ops = cB.operations.ordered_ops :=
    log_sorted_eq_of_mem_iff hsA hsB h
  simp only [Client.get_rendered_document]
  rw [e]

/-- Witness for C1: two clients that received the scenario-S3 operations in
opposite orders render the same text. -/
theorem convergence_same_log_set_witness :
    (Client.get_rendered_document
        { Client.create 2 with operations := build_log [op_a, op_b] }).map
        RenderedDocument.to_text
      = (Client.get_rendered_document
          { Client.create 3 with operations := build_log [op_b, op_a] }).map
          RenderedDocument.to_text := by
  have e : (build_log [op_a, op_b]).ordered_ops = (build_log [op_b, op_a]).ordered_ops := by
    decide
  exact convergence_same_log_set _ _ [op_a, op_b] [op_b, op_a] rfl rfl (fun p => by rw [e])

/-- C2 counterexample: in scenario S3 (clients 2 and 3 type `"a"` and `"b"`
at the origin paragraph anchor and exchange the two operations), the rendered
text is NOT `"ab"`. -/
theorem concurrent_origin_typing_not_ab :
    (client2_exchanged.bind Client.get_rendered_document).map RenderedDocument.to_text
      ≠ some "ab" := by
  decide

/-- C2 amended: after the exchange both replicas agree, but each character
sits in its own paragraph and the paragraph of client 3 precedes that of client 2 — the
rendered document text is `"b\na"` on both replicas (the typing at a
paragraph anchor emits `ParagraphInsert` operations, and since `find_mutable`
is a stub the operation applied later, the larger `OpId` `(1,3)`, lands at
paragraph index 1, closer to the origin anchor). -/
theorem concurrent_origin_typing_renders_b_then_a :
    (client2_exchanged.bind Client.get_rendered_document).map RenderedDocument.to_text
        = some "b\na"
      ∧ (client3_exchanged.bind Client.get_rendered_document).map RenderedDocument.to_text
        = some "b\na" := by
  exact ⟨rfl, rfl⟩

/-- C3 (evaluation at the failing input): a fresh client 3 with its caret on
the origin paragraph types `"a"`; an action is emitted (the log holds one
operation), yet the stored selection afterwards is `NotSelected`, not
`Caret(TextAnchor((1,3), None))` — `add_input` sets the caret on the old
document and then replaces the whole document with the refolded one. -/
theorem add_input_leaves_selection_not_selected :
    client3_typed.map (fun c => c.document.client_selection)
        = some ClientSelection.NotSelected
      ∧ client3_typed.map (fun c => c.operations.ordered_ops.length) = some 1 := by
  exact ⟨rfl, rfl⟩

/-- C4 (evaluation at the failing input): `contains` returns `true` for an
anchor index strictly above the upper bound of the node (`offset + len = 2`,
index 5), both when `offset_after` is set and when it is `None` — the
`relative_positon` of the source never returns `After` for a `Some` index
(its `TODO: check after`). -/
theorem contains_beyond_upper_bound_eval :
    TextNode.contains (TextNode.Text ⟨1, 1⟩ 0 (some 2) "ab") ⟨⟨1, 1⟩, some 5⟩ = true
      ∧ TextNode.contains (TextNode.Text ⟨1, 1⟩ 0 none "ab") ⟨⟨1, 1⟩, some 5⟩ = true := by
  exact ⟨rfl, rfl⟩

/-- C5: for a `Text` or `Tombstone` node and a split offset `k` with
`offset ≤ k ≤ offset + len`, `split_at` yields `(front, back)` with
`front.offset = offset`, `front.offset_after = Some(k)`, `back.offset = k`,
and `back.offset_after` equal to the original `offset_after`. -/
theorem split_at_boundary_fields (n : NodeId) (off : Nat) (oa : Option Nat) (s : String)
    (L k : Nat) (h1 : off ≤ k) (h2 : k ≤ off + s.length) (h3 : k ≤ off + L) :
    (∃ front_text back_text,
      TextNode.split_at (TextNode.Text n off oa s) k
        = some (TextNode.Text n off (some k) front_text, TextNode.Text n k oa back_text))
      ∧ (∃ front_len back_len,
        TextNode.split_at (TextNode.Tombstone n off oa L) k
          = some (TextNode.Tombstone n off (some k) front_len,
              TextNode.Tombstone n k oa back_len)) := by
  constructor
  · refine ⟨String.mk (s.toList.take (k - off)), String.mk (s.toList.drop (k - off)), ?_⟩
    simp only [TextNode.split_at]
    rw [if_neg (by omega), if_neg (by omega)]
  · refine ⟨k - off, L - (k - off), ?_⟩
    simp only [TextNode.split_at]
    rw [if_neg (by omega), if_neg (by omega)]

/-- Witness for C5 at a concrete node and in-range split offset. -/
theorem split_at_boundary_fields_witness :
    (∃ front_text back_text,
      TextNode.split_at (TextNode.Text ⟨1, 1⟩ 1 none "abc") 2
        = some (TextNode.Text ⟨1, 1⟩ 1 (some 2) front_text,
            TextNode.Text ⟨1, 1⟩ 2 none back_text))
      ∧ (∃ front_len back_len,
        TextNode.split_at (TextNode.Tombstone ⟨1, 1⟩ 1 none 3) 2
          = some (TextNode.Tombstone ⟨1, 1⟩ 1 (some 2) front_len,
              TextNode.Tombstone ⟨1, 1⟩ 2 none back_len)) :=
  split_at_boundary_fields ⟨1, 1⟩ 1 none "abc" 3 2 (by decide) (by decide) (by decide)

/-- C6: delivering an `(OpId, Action)` pair that is already present in the
log through `add_or_replace_node` leaves the folded-and-rendered document
unchanged — duplicate delivery of an identical operation is a no-op. -/
theorem duplicate_delivery_idempotent (c : Client) (id : NodeId) (a : Action)
    (hs : log_sorted c.operations.ordered_ops) (hm : (id, a) ∈ c.operations.ordered_ops) :
    Client.get_rendered_document { c with operations := c.operations.add_or_replace_node id a }
      = Client.get_rendered_document c := by
  obtain ⟨cid, doc, ⟨l⟩, cnt⟩ := c
  have e : btree_insert l id a = l := btree_insert_mem_self hs hm
  simp only [Client.get_rendered_document, Operations.add_or_replace_node, e]

/-- Witness for C6: re-delivering the single logged operation changes
nothing. -/
theorem duplicate_delivery_idempotent_witness :
    Client.get_rendered_document
        { Client.create 2 with
          operations := (Operations.mk [op_a]).add_or_replace_node op_a.1 op_a.2 }
      = Client.get_rendered_document { Client.create 2 with operations := Operations.mk [op_a] } :=
  duplicate_delivery_idempotent { Client.create 2 with operations := Operations.mk [op_a] }
    op_a.1 op_a.2 (by simp [log_sorted]) (List.mem_singleton.mpr rfl)

/-- C7: for every client state, `next_operation_id` returns
`max(operation_counter, max op id in the log) + 1` and stores it, so the
minted `NodeId` carries the id of the client and is strictly greater (in the
lexicographic `OpId` order) than every id in the log — the counter may still
be unset — and, when a counter is stored (the previously minted value),
strictly greater than it. -/
theorem minted_opid_strictly_greater (c : Client) :
    c.new_node_id.1.client_id = c.id
      ∧ c.new_node_id.1.operation_id
          = Nat.max (c.operation_counter.getD 0) c.operations.maximum_operation_id + 1
      ∧ c.new_node_id.2.operation_counter = some c.new_node_id.1.operation_id
      ∧ (∀ p ∈ c.operations.ordered_ops, NodeId.keyLt p.1 c.new_node_id.1 = true)
      ∧ (∀ m, c.operation_counter = some m → m < c.new_node_id.1.operation_id) := by
  refine ⟨rfl, rfl, rfl, ?_, ?_⟩
  · intro p hp
    rw [keyLt_iff]
    left
    show p.1.operation_id
      < Nat.max (c.operation_counter.getD 0) c.operations.maximum_operation_id + 1
    have hle : p.1.operation_id ≤ c.operations.maximum_operation_id :=
      mem_le_maximum_operation_id hp
    have h2 := Nat.le_max_right (c.operation_counter.getD 0) c.operations.maximum_operation_id
    exact Nat.lt_succ_of_le (Nat.le_trans hle h2)
  · intro m hm
    show m < Nat.max (c.operation_counter.getD 0) c.operations.maximum_operation_id + 1
    rw [hm, Option.getD_some]
    exact Nat.lt_succ_of_le (Nat.le_max_left _ _)

/-- Witness for C7 at two concrete clients: one that has only ingested a
remote operation (non-empty log, counter still unset) and one with a stored
counter, discharging the per-clause hypotheses at concrete inputs. -/
theorem minted_opid_strictly_greater_witness :
    c7_ingest_client.new_node_id.1.client_id = c7_ingest_client.id
      ∧ c7_ingest_client.new_node_id.1.operation_id
          = Nat.max (c7_ingest_client.operation_counter.getD 0)
              c7_ingest_client.operations.maximum_operation_id + 1
      ∧ c7_ingest_client.new_node_id.2.operation_counter
          = some c7_ingest_client.new_node_id.1.operation_id
      ∧ NodeId.keyLt op_b.1 c7_ingest_client.new_node_id.1 = true
      ∧ 1 < c7_client.new_node_id.1.operation_id :=
  ⟨(minted_opid_strictly_greater c7_ingest_client).1,
    (minted_opid_strictly_greater c7_ingest_client).2.1,
    (minted_opid_strictly_greater c7_ingest_client).2.2.1,
    (minted_opid_strictly_greater c7_ingest_client).2.2.2.1 op_b (List.mem_singleton.mpr rfl),
    (minted_opid_strictly_greater c7_client).2.2.2.2 1 rfl⟩

/-- C8: the unimplemented variants are refused — applying a log that contains
a range `Erase` or a `BeforeAnchor`/`AfterAnchor` paragraph insert produces
no document (the fold fails instead of landing a partial effect, so the
stored document and log of the client are untouched), and `add_input` refuses a
`ParagraphBreak` input and refuses typing while a range selection is active,
in both cases before the log or document is modified. -/
theorem unsupported_actions_refused (d : DocumentState) (pre post : List (NodeId × Action))
    (k : NodeId) (b e : TextAnchor) (ks : List ActionId) (pa : ParagraphId)
    (fp : NewParagraph) (ap : List (ParagraphId × NewParagraph)) (c : Client)
    (ba ea : TextOrParagraphAnchor) (s : String)
    (hr : c.document.client_selection = ClientSelection.Range ba ea) :
    DocumentState.apply_operations d (pre ++ (k, Action.Erase b e ks) :: post) = none
      ∧ DocumentState.apply_operations d
          (pre ++ (k, Action.ParagraphInsert pa ParagraphInsertPosition.BeforeAnchor fp ap)
            :: post) = none
      ∧ DocumentState.apply_operations d
          (pre ++ (k, Action.ParagraphInsert pa ParagraphInsertPosition.AfterAnchor fp ap)
            :: post) = none
      ∧ Client.add_input c Input.ParagraphBreak = none
      ∧ Client.add_input c (Input.Text s) = none := by
  refine ⟨?_, ?_, ?_, rfl, ?_⟩
  · exact apply_operations_with_refused d pre post _ (fun st => rfl)
  · exact apply_operations_with_refused d pre post _ (fun st => rfl)
  · exact apply_operations_with_refused d pre post _ (fun st => rfl)
  · simp [Client.add_input, Client.get_non_tombstone_selection,
      DocumentState.get_non_tombstone_selection, hr]

/-- Witness for C8 at concrete inputs (empty surrounding log, a client whose
stored selection is a range over the origin paragraph). -/
theorem unsupported_actions_refused_witness :
    DocumentState.apply_operations DocumentState.empty
        [(⟨1, 2⟩, Action.Erase ⟨⟨1, 2⟩, none⟩ ⟨⟨1, 2⟩, none⟩ [])] = none
      ∧ DocumentState.apply_operations DocumentState.empty
          [(⟨1, 2⟩, Action.ParagraphInsert ⟨0, 0⟩ ParagraphInsertPosition.BeforeAnchor
            ⟨⟨1, 2⟩, []⟩ [])] = none
      ∧ DocumentState.apply_operations DocumentState.empty
          [(⟨1, 2⟩, Action.ParagraphInsert ⟨0, 0⟩ ParagraphInsertPosition.AfterAnchor
            ⟨⟨1, 2⟩, []⟩ [])] = none
      ∧ Client.add_input (Client.change_selection (Client.create 2)
          (ClientSelection.Range
            (TextOrParagraphAnchor.ParagraphAnchor
              ⟨⟨0, 0⟩, ParagraphAnchorRelativity.AtBeginning⟩)
            (TextOrParagraphAnchor.ParagraphAnchor
              ⟨⟨0, 0⟩, ParagraphAnchorRelativity.AtEnd⟩)))
          Input.ParagraphBreak = none
      ∧ Client.add_input (Client.change_selection (Client.create 2)
          (ClientSelection.Range
            (TextOrParagraphAnchor.ParagraphAnchor
              ⟨⟨0, 0⟩, ParagraphAnchorRelativity.AtBeginning⟩)
            (TextOrParagraphAnchor.ParagraphAnchor
              ⟨⟨0, 0⟩, ParagraphAnchorRelativity.AtEnd⟩)))
          (Input.Text "x") = none :=
  unsupported_actions_refused DocumentState.empty [] [] ⟨1, 2⟩ ⟨⟨1, 2⟩, none⟩ ⟨⟨1, 2⟩, none⟩ []
    ⟨0, 0⟩ ⟨⟨1, 2⟩, []⟩ []
    (Client.change_selection (Client.create 2)
      (ClientSelection.Range
        (TextOrParagraphAnchor.ParagraphAnchor ⟨⟨0, 0⟩, ParagraphAnchorRelativity.AtBeginning⟩)
        (TextOrParagraphAnchor.ParagraphAnchor ⟨⟨0, 0⟩, ParagraphAnchorRelativity.AtEnd⟩)))
    (TextOrParagraphAnchor.ParagraphAnchor ⟨⟨0, 0⟩, ParagraphAnchorRelativity.AtBeginning⟩)
    (TextOrParagraphAnchor.ParagraphAnchor ⟨⟨0, 0⟩, ParagraphAnchorRelativity.AtEnd⟩)
    "x" rfl

/-- C9: a minted `NodeId` carries the (nonzero) id of the client as `client_id`,
so neither it nor the `ParagraphId` derived from it can equal the reserved
origin paragraph id `(0, 0)`. -/
theorem minted_node_id_nonzero_client (c : Client) (h : c.id ≠ 0) :
    c.new_node_id.1.client_id = c.id
      ∧ c.new_node_id.1.client_id ≠ 0
      ∧ ParagraphId.from_node_id c.new_node_id.1 ≠ Paragraph.origin.paragraph_id := by
  refine ⟨rfl, h, ?_⟩
  intro heq
  have h2 := congrArg ParagraphId.client_id heq
  simp only [ParagraphId.from_node_id, Paragraph.origin] at h2
  exact h h2

/-- Witness for C9 at the concrete client with id 2. -/
theorem minted_node_id_nonzero_client_witness :
    (Client.create 2).new_node_id.1.client_id = (Client.create 2).id
      ∧ (Client.create 2).new_node_id.1.client_id ≠ 0
      ∧ ParagraphId.from_node_id (Client.create 2).new_node_id.1
        ≠ Paragraph.origin.paragraph_id :=
  minted_node_id_nonzero_client (Client.create 2) (by decide)

/-- C10: an in-range split of a `Text` node keeps the node id on both
fragments, the front fragment holds exactly the first `k - offset`
characters, and the two texts concatenate back to the original; for a
`Tombstone` the two lengths sum to the original length. -/
theorem split_at_preserves_content (n : NodeId) (off : Nat) (oa : Option Nat) (s : String)
    (L k : Nat) (h1 : off ≤ k) (h2 : k ≤ off + s.length) (h3 : k ≤ off + L) :
    (∃ front_text back_text,
      TextNode.split_at (TextNode.Text n off oa s) k
          = some (TextNode.Text n off (some k) front_text, TextNode.Text n k oa back_text)
        ∧ front_text.toList = s.toList.take (k - off)
        ∧ front_text ++ back_text = s)
      ∧ (∃ front_len back_len,
        TextNode.split_at (TextNode.Tombstone n off oa L) k
            = some (TextNode.Tombstone n off (some k) front_len,
                TextNode.Tombstone n k oa back_len)
          ∧ front_len + back_len = L) := by
  constructor
  · refine ⟨String.mk (s.toList.take (k - off)), String.mk (s.toList.drop (k - off)),
      ?_, rfl, ?_⟩
    · simp only [TextNode.split_at]
      rw [if_neg (by omega), if_neg (by omega)]
    · have e : String.mk (s.toList.take (k - off)) ++ String.mk (s.toList.drop (k - off))
          = String.mk (s.toList.take (k - off) ++ s.toList.drop (k - off)) := rfl
      rw [e, List.take_append_drop]
      cases s
      rfl
  · refine ⟨k - off, L - (k - off), ?_, by omega⟩
    simp only [TextNode.split_at]
    rw [if_neg (by omega), if_neg (by omega)]

/-- Witness for C10 at a concrete node and in-range split offset. -/
theorem split_at_preserves_content_witness :
    (∃ front_text back_text,
      TextNode.split_at (TextNode.Text ⟨1, 1⟩ 1 none "abc") 2
          = some (TextNode.Text ⟨1, 1⟩ 1 (some 2) front_text,
              TextNode.Text ⟨1, 1⟩ 2 none back_text)
        ∧ front_text.toList = "abc".toList.take (2 - 1)
        ∧ front_text ++ back_text = "abc")
      ∧ (∃ front_len back_len,
        TextNode.split_at (TextNode.Tombstone ⟨1, 1⟩ 1 none 3) 2
            = some (TextNode.Tombstone ⟨1, 1⟩ 1 (some 2) front_len,
                TextNode.Tombstone ⟨1, 1⟩ 2 none back_len)
          ∧ front_len + back_len = 3) :=
  split_at_preserves_content ⟨1, 1⟩ 1 none "abc" 3 2 (by decide) (by decide) (by decide)

end CrdtSplice
